import Mathlib

/-
Verification of the permission-checking and audit-logging subsystem of the
app-template repository, as a shallow embedding in Lean 4.

The embedding mirrors the TypeScript source:
  - CheckPermissionUseCase (src/use-cases/permission/check-permission.use-case.ts)
  - PermissionChecker (src/lib/permissions/permission-checker.ts)
  - PermissionRepository.getUserPermissions
    (src/infrastructure/repositories/permission.repository.ts)
  - AuditLogger (src/lib/audit-logger.ts)
  - AuditLogRepository (src/infrastructure/repositories/audit-log.repository.ts)

JavaScript records keyed by strings are modelled as association lists with
assignment semantics (overwrite in place, append at the end for a fresh key),
which is the observable behaviour of plain objects and of Map for string keys.
JavaScript numbers are modelled as rationals plus a NaN marker.  Storage is
modelled as explicit state passing; a thrown exception is an Except.error.
-/

namespace AppT

/-- A row of the permissions table, as selected by
PermissionRepository.getUserPermissions.  Timestamps are modelled as naturals. -/
structure PermissionRow where
  id : String
  name : String
  resource : String
  action : String
  description : Option String
  createdAt : Nat
  updatedAt : Nat
  deletedAt : Option Nat
deriving DecidableEq, Repr

/-- CheckPermissionUseCase.execute, membership-scan part: the loop
initialises hasPermission to false, walks the whole permission list and sets
the flag on a match, never breaking out of the loop. -/
def execute (perms : List PermissionRow) (resource action : String) : Bool :=
  perms.foldl
    (fun hasPermission p =>
      if p.resource == resource && p.action == action then true else hasPermission)
    false

/-- The same loop instrumented with a comparison counter: each iteration
performs exactly one (resource, action) comparison and one flag update. -/
def executeInstr (perms : List PermissionRow) (resource action : String) :
    Bool × Nat :=
  perms.foldl
    (fun acc p =>
      ((if p.resource == resource && p.action == action then true else acc.1),
        acc.2 + 1))
    (false, 0)

theorem executeInstr_foldl_snd (perms : List PermissionRow) (resource action : String)
    (b : Bool) (n : Nat) :
    (perms.foldl
      (fun acc p =>
        ((if p.resource == resource && p.action == action then true else acc.1),
          acc.2 + 1))
      (b, n)).2 = n + perms.length := by
  induction perms generalizing b n with
  | nil => simp
  | cons p rest ih =>
      simp only [List.foldl_cons, ih, List.length_cons]
      omega

theorem execute_foldl_or (perms : List PermissionRow) (resource action : String)
    (b : Bool) :
    perms.foldl
      (fun hasPermission p =>
        if p.resource == resource && p.action == action then true else hasPermission)
      b
    = (b || perms.any (fun p => p.resource == resource && p.action == action)) := by
  induction perms generalizing b with
  | nil => simp
  | cons p rest ih =>
      simp only [List.foldl_cons, List.any_cons, ih]
      by_cases h : (p.resource == resource && p.action == action) = true
      · simp [h]
      · simp [Bool.of_not_eq_true h]

theorem execute_eq_any (perms : List PermissionRow) (resource action : String) :
    execute perms resource action
      = perms.any (fun p => p.resource == resource && p.action == action) := by
  unfold execute
  rw [execute_foldl_or]
  simp

theorem executeInstr_foldl_fst (perms : List PermissionRow) (resource action : String)
    (b : Bool) (n : Nat) :
    (perms.foldl
      (fun acc p =>
        ((if p.resource == resource && p.action == action then true else acc.1),
          acc.2 + 1))
      (b, n)).1
    = perms.foldl
        (fun hasPermission p =>
          if p.resource == resource && p.action == action then true else hasPermission)
        b := by
  induction perms generalizing b n with
  | nil => simp
  | cons p rest ih => simp only [List.foldl_cons, ih]

theorem executeInstr_fst (perms : List PermissionRow) (resource action : String) :
    (executeInstr perms resource action).1 = execute perms resource action :=
  executeInstr_foldl_fst perms resource action false 0

/-- Claim C1: the single-permission membership test in
CheckPermissionUseCase.execute does not short-circuit: it performs exactly one
comparison per permission in the fetched list, so the comparison count equals
the length of the list for every input, and the result is the
non-short-circuiting boolean OR of all the individual comparisons. -/
theorem c1_execute_uniform_scan (perms : List PermissionRow) (resource action : String) :
    (executeInstr perms resource action).2 = perms.length
    ∧ (executeInstr perms resource action).1
        = perms.any (fun p => p.resource == resource && p.action == action) := by
  constructor
  · unfold executeInstr
    rw [executeInstr_foldl_snd]
    omega
  · rw [executeInstr_fst, execute_eq_any]

/-- PermissionChecker.check: wraps the use-case call in a try/catch and
returns false on any thrown error.  The use-case call is modelled as a
function that may throw (Except.error) or return a boolean. -/
def guardCheck (exec : String → String → String → Except String Bool)
    (userId resource action : String) : Bool :=
  match exec userId resource action with
  | Except.ok b => b
  | Except.error _ => false

/-- PermissionChecker.require: calls check and, when it yields false, throws
the fixed generic error Forbidden. -/
def guardRequire (exec : String → String → String → Except String Bool)
    (userId resource action : String) : Except String Unit :=
  if guardCheck exec userId resource action then Except.ok ()
  else Except.error "Forbidden"

/-- Claim C2: if the underlying use-case call throws, PermissionChecker.check
catches the error and returns false (it never rethrows, as its return type
shows); and PermissionChecker.require either succeeds or fails with exactly
the constant message Forbidden, which mentions no resource, action or actor. -/
theorem c2_guard_fail_closed
    (exec : String → String → String → Except String Bool)
    (userId resource action e : String)
    (h : exec userId resource action = Except.error e) :
    guardCheck exec userId resource action = false
    ∧ (guardRequire exec userId resource action = Except.ok ()
        ∨ guardRequire exec userId resource action = Except.error "Forbidden") := by
  constructor
  · unfold guardCheck
    rw [h]
  · unfold guardRequire
    by_cases hc : guardCheck exec userId resource action
    · exact Or.inl (by rw [if_pos hc])
    · exact Or.inr (by rw [if_neg hc])

theorem c2_guard_fail_closed_witness :
    ((fun (_ _ _ : String) => (Except.error "connection refused" : Except String Bool))
        "user-1" "users" "read" = Except.error "connection refused")
    ∧ (guardCheck
        (fun _ _ _ => Except.error "connection refused") "user-1" "users" "read" = false
      ∧ (guardRequire
          (fun _ _ _ => Except.error "connection refused") "user-1" "users" "read"
            = Except.ok ()
        ∨ guardRequire
            (fun _ _ _ => Except.error "connection refused") "user-1" "users" "read"
              = Except.error "Forbidden")) :=
  ⟨rfl,
    c2_guard_fail_closed (fun _ _ _ => Except.error "connection refused")
      "user-1" "users" "read" "connection refused" rfl⟩

/-- A check requested from the batch interface: a resource and an action. -/
structure Check where
  resource : String
  action : String
deriving DecidableEq, Repr

/-- Assignment to a JavaScript object or Map keyed by strings: overwrite in
place when the key exists, append at the end otherwise. -/
def mapSet {β : Type} (m : List (String × β)) (k : String) (v : β) :
    List (String × β) :=
  if m.any (fun e => e.1 == k) then
    m.map (fun e => if e.1 == k then (k, v) else e)
  else m ++ [(k, v)]

/-- CheckPermissionUseCase.checkMultiple: one permission fetch, then for each
check an Array.some membership test, stored under the key
resource ++ colon ++ action in a plain object. -/
def checkMultipleUC (perms : List PermissionRow) (checks : List Check) :
    List (String × Bool) :=
  checks.foldl
    (fun results c =>
      mapSet results (c.resource ++ ":" ++ c.action)
        (perms.any (fun p => p.resource == c.resource && p.action == c.action)))
    []

/-- CheckPermissionUseCase.checkMultiple with its storage cost: the method
performs exactly one getUserPermissions fetch, whatever the checks list is. -/
def checkMultipleUCInstr (perms : List PermissionRow) (checks : List Check) :
    List (String × Bool) × Nat :=
  (checkMultipleUC perms checks, 1)

/-- PermissionChecker.hasAll, with the fetch count of the underlying use-case
call: Object.values(results).every over the collapsed result object. -/
def hasAllGuard (perms : List PermissionRow) (checks : List Check) : Bool × Nat :=
  ((checkMultipleUCInstr perms checks).1.all (fun e => e.2),
    (checkMultipleUCInstr perms checks).2)

/-- PermissionChecker.hasAny, with the fetch count of the underlying use-case
call: Object.values(results).some over the collapsed result object. -/
def hasAnyGuard (perms : List PermissionRow) (checks : List Check) : Bool × Nat :=
  ((checkMultipleUCInstr perms checks).1.any (fun e => e.2),
    (checkMultipleUCInstr perms checks).2)

/-- Claim C3 (behaviour of the code at the failing input): for an empty checks
list, hasAll returns true, not false, and both hasAll and hasAny still perform
one permission fetch through the use case, for every permission store.  This
contradicts the repository test suite, which pins hasAll(actor, []) and
hasAny(actor, []) to false with no checkMultiple call. -/
theorem c3_empty_combinators_bug (perms : List PermissionRow) :
    hasAllGuard perms [] = (true, 1) ∧ hasAnyGuard perms [] = (false, 1) := by
  constructor <;> rfl

/-- Array.prototype.some as used by checkMultiple, instrumented with the
number of predicate evaluations: it stops at the first match. -/
def someInstr (perms : List PermissionRow) (resource action : String) : Bool × Nat :=
  match perms with
  | [] => (false, 0)
  | p :: rest =>
      if p.resource == resource && p.action == action then (true, 1)
      else ((someInstr rest resource action).1, (someInstr rest resource action).2 + 1)

theorem someInstr_fst (perms : List PermissionRow) (resource action : String) :
    (someInstr perms resource action).1
      = perms.any (fun p => p.resource == resource && p.action == action) := by
  induction perms with
  | nil => rfl
  | cons p rest ih =>
      unfold someInstr
      by_cases h : (p.resource == resource && p.action == action) = true
      · simp [h]
      · simp [Bool.of_not_eq_true h, ih]

theorem mem_mapSet {β : Type} (m : List (String × β)) (k : String) (v : β)
    (e : String × β) (h : e ∈ mapSet m k v) : e ∈ m ∨ e = (k, v) := by
  unfold mapSet at h
  by_cases hc : (m.any (fun e => e.1 == k)) = true
  · rw [if_pos hc] at h
    obtain ⟨e', he', hfe⟩ := List.mem_map.mp h
    by_cases hk : (e'.1 == k) = true
    · rw [if_pos hk] at hfe
      exact Or.inr hfe.symm
    · rw [if_neg hk] at hfe
      exact Or.inl (hfe ▸ he')
  · rw [if_neg hc] at h
    rcases List.mem_append.mp h with h1 | h2
    · exact Or.inl h1
    · exact Or.inr (List.mem_singleton.mp h2)

theorem checkMultiple_fold_entries (perms : List PermissionRow) :
    ∀ (checks : List Check) (m : List (String × Bool)) (e : String × Bool),
      e ∈ checks.foldl
        (fun results c =>
          mapSet results (c.resource ++ ":" ++ c.action)
            (perms.any (fun p => p.resource == c.resource && p.action == c.action)))
        m →
      e ∈ m
      ∨ ∃ c ∈ checks,
          e = (c.resource ++ ":" ++ c.action,
            perms.any (fun p => p.resource == c.resource && p.action == c.action)) := by
  intro checks
  induction checks with
  | nil =>
      intro m e h
      exact Or.inl h
  | cons c rest ih =>
      intro m e h
      rw [List.foldl_cons] at h
      rcases ih _ e h with h1 | ⟨c', hc', he⟩
      · rcases mem_mapSet _ _ _ e h1 with h2 | h3
        · exact Or.inl h2
        · exact Or.inr ⟨c, List.mem_cons_self c rest, h3⟩
      · exact Or.inr ⟨c', List.mem_cons_of_mem c hc', he⟩

/-- Two fixed permission rows used for concrete evaluations: users read and
users write. -/
def permUsersRead : PermissionRow :=
  ⟨"perm-1", "users:read", "users", "read", none, 0, 0, none⟩

def permUsersWrite : PermissionRow :=
  ⟨"perm-2", "users:write", "users", "write", none, 0, 0, none⟩

/-- Claim C5, counterexample: on a two-permission list whose first entry
matches, the per-pair membership test of checkMultiple (Array.some) performs
one comparison and stops, while the single-check scan of execute performs one
comparison per list entry, two in total.  So the batch does not use the
non-short-circuiting uniform-time policy of the single check. -/
theorem c5_counterexample_short_circuit :
    (someInstr [permUsersRead, permUsersWrite] "users" "read").2 = 1
    ∧ (executeInstr [permUsersRead, permUsersWrite] "users" "read").2 = 2
    ∧ (someInstr [permUsersRead, permUsersWrite] "users" "read").2
        ≠ [permUsersRead, permUsersWrite].length := by
  refine ⟨rfl, rfl, ?_⟩
  decide

/-- Claim C5 as amended: checkMultiple fetches the permission set exactly once
for any checks list; its per-pair membership value agrees with the value of the
single-check scan for every (resource, action); and every entry of the result
object is keyed by the concatenation of some requested check and carries
exactly the result the single-check operation would return for that check.
The per-pair test is however the short-circuiting Array.some, not the
non-short-circuiting scan of the single-check operation. -/
theorem c5_batch_equivalence :
    (∀ (perms : List PermissionRow) (checks : List Check),
      (checkMultipleUCInstr perms checks).2 = 1)
    ∧ (∀ (perms : List PermissionRow) (resource action : String),
        (someInstr perms resource action).1 = execute perms resource action)
    ∧ (∀ (perms : List PermissionRow) (checks : List Check) (e : String × Bool),
        e ∈ checkMultipleUC perms checks →
        ∃ c ∈ checks,
          e.1 = c.resource ++ ":" ++ c.action
          ∧ e.2 = execute perms c.resource c.action) := by
  refine ⟨fun _ _ => rfl, ?_, ?_⟩
  · intro perms resource action
    rw [someInstr_fst, execute_eq_any]
  · intro perms checks e h
    rcases checkMultiple_fold_entries perms checks [] e h with h1 | ⟨c, hc, he⟩
    · exact absurd h1 (List.not_mem_nil e)
    · refine ⟨c, hc, ?_, ?_⟩
      · rw [he]
      · rw [he, execute_eq_any]

theorem c5_batch_equivalence_witness :
    (("users:read", true) ∈ checkMultipleUC [permUsersRead] [⟨"users", "read"⟩])
    ∧ (∃ c ∈ [(⟨"users", "read"⟩ : Check)],
        ("users:read", true).1 = c.resource ++ ":" ++ c.action
        ∧ ("users:read", true).2 = execute [permUsersRead] c.resource c.action) :=
  ⟨by decide,
    c5_batch_equivalence.2.2 [permUsersRead] [⟨"users", "read"⟩]
      ("users:read", true) (by decide)⟩

/-- Claim C9: when two distinct checks have colliding concatenated keys, the
result object of checkMultiple has a single shared entry whose value is the
single-check result of the later check; the object is shorter than the checks
list;
and hasAll and hasAny aggregate over that collapsed entry only. -/
theorem c9_key_collision (perms : List PermissionRow) (c1 c2 : Check)
    (hk : c1.resource ++ ":" ++ c1.action = c2.resource ++ ":" ++ c2.action)
    (_hne : c1 ≠ c2) :
    checkMultipleUC perms [c1, c2]
      = [(c2.resource ++ ":" ++ c2.action, execute perms c2.resource c2.action)]
    ∧ (checkMultipleUC perms [c1, c2]).length < [c1, c2].length
    ∧ (hasAllGuard perms [c1, c2]).1 = execute perms c2.resource c2.action
    ∧ (hasAnyGuard perms [c1, c2]).1 = execute perms c2.resource c2.action := by
  have hmain : checkMultipleUC perms [c1, c2]
      = [(c2.resource ++ ":" ++ c2.action, execute perms c2.resource c2.action)] := by
    unfold checkMultipleUC
    rw [execute_eq_any]
    simp [mapSet, hk]
  refine ⟨hmain, ?_, ?_, ?_⟩
  · rw [hmain]
    simp
  · unfold hasAllGuard checkMultipleUCInstr
    rw [hmain]
    simp
  · unfold hasAnyGuard checkMultipleUCInstr
    rw [hmain]
    simp

/-- A fixed permission row granting resource a, action b colon c, used to
exercise the key-collision case. -/
def permCollide : PermissionRow :=
  ⟨"perm-3", "a:b:c", "a", "b:c", none, 0, 0, none⟩

theorem c9_key_collision_witness :
    ((⟨"a:b", "c"⟩ : Check).resource ++ ":" ++ (⟨"a:b", "c"⟩ : Check).action
        = (⟨"a", "b:c"⟩ : Check).resource ++ ":" ++ (⟨"a", "b:c"⟩ : Check).action)
    ∧ ((⟨"a:b", "c"⟩ : Check) ≠ (⟨"a", "b:c"⟩ : Check))
    ∧ (checkMultipleUC [permCollide] [⟨"a:b", "c"⟩, ⟨"a", "b:c"⟩]
        = [((⟨"a", "b:c"⟩ : Check).resource ++ ":" ++ (⟨"a", "b:c"⟩ : Check).action,
            execute [permCollide]
              (⟨"a", "b:c"⟩ : Check).resource (⟨"a", "b:c"⟩ : Check).action)]
      ∧ (checkMultipleUC [permCollide] [⟨"a:b", "c"⟩, ⟨"a", "b:c"⟩]).length
          < [(⟨"a:b", "c"⟩ : Check), ⟨"a", "b:c"⟩].length
      ∧ (hasAllGuard [permCollide] [⟨"a:b", "c"⟩, ⟨"a", "b:c"⟩]).1
          = execute [permCollide]
              (⟨"a", "b:c"⟩ : Check).resource (⟨"a", "b:c"⟩ : Check).action
      ∧ (hasAnyGuard [permCollide] [⟨"a:b", "c"⟩, ⟨"a", "b:c"⟩]).1
          = execute [permCollide]
              (⟨"a", "b:c"⟩ : Check).resource (⟨"a", "b:c"⟩ : Check).action) :=
  ⟨by decide, by decide,
    c9_key_collision [permCollide] ⟨"a:b", "c"⟩ ⟨"a", "b:c"⟩ (by decide) (by decide)⟩

/-- A row of the user_roles link table. -/
structure UserRoleRow where
  id : String
  userId : String
  roleId : String
  createdAt : Nat
deriving DecidableEq, Repr

/-- A row of the roles table. -/
structure RoleRow where
  id : String
  name : String
  description : Option String
  groupId : String
  createdAt : Nat
  updatedAt : Nat
  deletedAt : Option Nat
deriving DecidableEq, Repr

/-- A row of the role_permissions link table. -/
structure RolePermissionRow where
  id : String
  roleId : String
  permissionId : String
  createdAt : Nat
deriving DecidableEq, Repr

/-- The permission store: the four tables read by
PermissionRepository.getUserPermissions. -/
structure Store where
  userRoles : List UserRoleRow
  roles : List RoleRow
  rolePermissions : List RolePermissionRow
  permissions : List PermissionRow
deriving Repr

/-- The raw result set of the query in getUserPermissions: user_roles inner
join roles, role_permissions and permissions, filtered on the user id and the
soft-delete markers of roles and permissions, before deduplication. -/
def getUserPermissionRows (s : Store) (userId : String) : List PermissionRow :=
  s.userRoles.flatMap (fun ur =>
    s.roles.flatMap (fun r =>
      s.rolePermissions.flatMap (fun rp =>
        s.permissions.filterMap (fun p =>
          if ur.roleId == r.id && rp.roleId == r.id && rp.permissionId == p.id
              && ur.userId == userId && r.deletedAt.isNone && p.deletedAt.isNone
          then some p else none))))

/-- The deduplication step of getUserPermissions: insert every row into a Map
keyed by the permission id, then list the values. -/
def dedupeById (rows : List PermissionRow) : List PermissionRow :=
  (rows.foldl (fun m p => mapSet m p.id p) []).map Prod.snd

/-- PermissionRepository.getUserPermissions over the store model. -/
def getUserPermissions (s : Store) (userId : String) : List PermissionRow :=
  dedupeById (getUserPermissionRows s userId)

/-- CheckPermissionUseCase.execute over the store model: fetch the deduplicated
permission set, then run the full membership scan. -/
def hasPermissionStore (s : Store) (userId resource action : String) : Bool :=
  execute (getUserPermissions s userId) resource action

/-- Invariant of the deduplication fold: the accumulated Map has pairwise
distinct keys, every entry is keyed by the id of its value and its value is a
processed row, and every processed row has an entry under its id. -/
def DedupInv (processed : List PermissionRow)
    (m : List (String × PermissionRow)) : Prop :=
  (m.map Prod.fst).Nodup
  ∧ (∀ e ∈ m, e.1 = e.2.id ∧ e.2 ∈ processed)
  ∧ (∀ p ∈ processed, ∃ e ∈ m, e.1 = p.id)

theorem dedupInv_step (processed : List PermissionRow)
    (m : List (String × PermissionRow)) (p : PermissionRow)
    (h : DedupInv processed m) :
    DedupInv (processed ++ [p]) (mapSet m p.id p) := by
  obtain ⟨hnd, hmem, hcov⟩ := h
  unfold mapSet
  by_cases hc : (m.any (fun e => e.1 == p.id)) = true
  · rw [if_pos hc]
    have hfst : ∀ e ∈ m,
        (if e.1 == p.id then (p.id, p) else e).1 = e.1 := by
      intro e _
      by_cases hk : (e.1 == p.id) = true
      · rw [if_pos hk]
        exact (beq_iff_eq.mp hk).symm
      · rw [if_neg hk]
    have hkeys : (m.map (fun e => if e.1 == p.id then (p.id, p) else e)).map Prod.fst
        = m.map Prod.fst := by
      rw [List.map_map]
      exact List.map_congr_left hfst
    refine ⟨by rw [hkeys]; exact hnd, ?_, ?_⟩
    · intro e he
      obtain ⟨e', he', hfe⟩ := List.mem_map.mp he
      by_cases hk : (e'.1 == p.id) = true
      · rw [if_pos hk] at hfe
        rw [← hfe]
        exact ⟨rfl, List.mem_append_right processed (List.mem_singleton.mpr rfl)⟩
      · rw [if_neg hk] at hfe
        obtain ⟨h1, h2⟩ := hmem e' he'
        exact ⟨hfe ▸ h1, hfe ▸ List.mem_append_left [p] h2⟩
    · intro q hq
      rcases List.mem_append.mp hq with hq1 | hq2
      · obtain ⟨e, he, h1⟩ := hcov q hq1
        exact ⟨(if e.1 == p.id then (p.id, p) else e),
          List.mem_map_of_mem _ he, by rw [hfst e he]; exact h1⟩
      · obtain ⟨e, he, hek⟩ := List.any_eq_true.mp hc
        refine ⟨(if e.1 == p.id then (p.id, p) else e),
          List.mem_map_of_mem _ he, ?_⟩
        rw [if_pos hek, List.mem_singleton.mp hq2]
  · rw [if_neg hc]
    have hnk : p.id ∉ m.map Prod.fst := by
      intro hin
      obtain ⟨e, he, hfe⟩ := List.mem_map.mp hin
      exact hc (List.any_eq_true.mpr ⟨e, he, beq_iff_eq.mpr hfe⟩)
    refine ⟨?_, ?_, ?_⟩
    · rw [List.map_append]
      simp only [List.map_cons, List.map_nil]
      rw [List.nodup_append]
      exact ⟨hnd, List.nodup_singleton _,
        by simpa [List.disjoint_singleton] using hnk⟩
    · intro e he
      rcases List.mem_append.mp he with h1 | h2
      · obtain ⟨ha, hb⟩ := hmem e h1
        exact ⟨ha, List.mem_append_left [p] hb⟩
      · rw [List.mem_singleton.mp h2]
        exact ⟨rfl, List.mem_append_right processed (List.mem_singleton.mpr rfl)⟩
    · intro q hq
      rcases List.mem_append.mp hq with hq1 | hq2
      · obtain ⟨e, he, h1⟩ := hcov q hq1
        exact ⟨e, List.mem_append_left _ he, h1⟩
      · exact ⟨(p.id, p),
          List.mem_append_right m (List.mem_singleton.mpr rfl),
          by rw [List.mem_singleton.mp hq2]⟩

theorem dedupInv_fold (rows : List PermissionRow) :
    ∀ (processed : List PermissionRow) (m : List (String × PermissionRow)),
      DedupInv processed m →
      DedupInv (processed ++ rows)
        (rows.foldl (fun m p => mapSet m p.id p) m) := by
  induction rows with
  | nil =>
      intro processed m h
      simpa using h
  | cons p rest ih =>
      intro processed m h
      rw [List.foldl_cons]
      have h2 := ih (processed ++ [p]) (mapSet m p.id p) (dedupInv_step processed m p h)
      simpa [List.append_assoc] using h2

theorem dedupInv_dedupe (rows : List PermissionRow) :
    DedupInv rows (rows.foldl (fun m p => mapSet m p.id p) []) := by
  have h0 : DedupInv [] ([] : List (String × PermissionRow)) := by
    refine ⟨List.nodup_nil, ?_, ?_⟩ <;> intro e he <;> cases he
  simpa using dedupInv_fold rows [] [] h0

theorem dedupeById_ids_nodup (rows : List PermissionRow) :
    ((dedupeById rows).map (fun p => p.id)).Nodup := by
  obtain ⟨hnd, hmem, _⟩ := dedupInv_dedupe rows
  unfold dedupeById
  rw [List.map_map]
  have : (rows.foldl (fun m p => mapSet m p.id p) []).map
        ((fun p => p.id) ∘ Prod.snd)
      = (rows.foldl (fun m p => mapSet m p.id p) []).map Prod.fst := by
    apply List.map_congr_left
    intro e he
    exact ((hmem e he).1).symm
  rw [this]
  exact hnd

theorem mem_dedupeById (rows : List PermissionRow)
    (hinj : ∀ p ∈ rows, ∀ q ∈ rows, p.id = q.id → p = q) (x : PermissionRow) :
    x ∈ dedupeById rows ↔ x ∈ rows := by
  obtain ⟨_, hmem, hcov⟩ := dedupInv_dedupe rows
  constructor
  · intro hx
    obtain ⟨e, he, hfe⟩ := List.mem_map.mp hx
    exact hfe ▸ (hmem e he).2
  · intro hx
    obtain ⟨e, he, h1⟩ := hcov x hx
    have h2 := hmem e he
    have h3 : e.2 = x := hinj e.2 h2.2 x hx (by rw [← h2.1, h1])
    exact h3 ▸ List.mem_map_of_mem Prod.snd he

theorem countP_id_le_one (l : List PermissionRow)
    (h : (l.map (fun p => p.id)).Nodup) (pid : String) :
    l.countP (fun p => p.id == pid) ≤ 1 := by
  have h1 : l.countP (fun p => p.id == pid)
      = (l.map (fun p => p.id)).countP (fun x => x == pid) := by
    rw [List.countP_map]
    rfl
  rw [h1]
  have h2 : (l.map (fun p => p.id)).countP (fun x => x == pid)
      = (l.map (fun p => p.id)).count pid := rfl
  rw [h2]
  exact List.nodup_iff_count_le_one.mp h pid

theorem getUserPermissionRows_sub (s : Store) (userId : String)
    (p : PermissionRow) (h : p ∈ getUserPermissionRows s userId) :
    p ∈ s.permissions := by
  unfold getUserPermissionRows at h
  obtain ⟨ur, _, h1⟩ := List.mem_flatMap.mp h
  obtain ⟨r, _, h2⟩ := List.mem_flatMap.mp h1
  obtain ⟨rp, _, h3⟩ := List.mem_flatMap.mp h2
  obtain ⟨q, hq, h4⟩ := List.mem_filterMap.mp h3
  by_cases hc : (ur.roleId == r.id && rp.roleId == r.id && rp.permissionId == q.id
      && ur.userId == userId && r.deletedAt.isNone && q.deletedAt.isNone) = true
  · rw [if_pos hc] at h4
    exact (Option.some_inj.mp h4) ▸ hq
  · rw [if_neg hc] at h4
    cases h4

/-- Claim C8: when the rows reachable through the role memberships of a user
contain the same permission two or more times (two roles granting it, or a
duplicated link), getUserPermissions returns a row with that permission id
exactly once, and the membership check gives the same boolean as a scan of the
raw duplicate-containing row set.  The permission ids of the permissions table
are assumed pairwise distinct, as its primary key guarantees. -/
theorem c8_duplicate_grants_idempotent (s : Store) (userId pid resource action : String)
    (hN : (s.permissions.map (fun p => p.id)).Nodup)
    (hdup : 2 ≤ (getUserPermissionRows s userId).countP (fun p => p.id == pid)) :
    (getUserPermissions s userId).countP (fun p => p.id == pid) = 1
    ∧ hasPermissionStore s userId resource action
        = (getUserPermissionRows s userId).any
            (fun p => p.resource == resource && p.action == action) := by
  have hinj : ∀ p ∈ getUserPermissionRows s userId,
      ∀ q ∈ getUserPermissionRows s userId, p.id = q.id → p = q := by
    intro p hp q hq
    exact List.inj_on_of_nodup_map hN
      (getUserPermissionRows_sub s userId p hp)
      (getUserPermissionRows_sub s userId q hq)
  have hmemiff := mem_dedupeById (getUserPermissionRows s userId) hinj
  constructor
  · have hle : (getUserPermissions s userId).countP (fun p => p.id == pid) ≤ 1 :=
      countP_id_le_one _ (dedupeById_ids_nodup _) pid
    have hpos : 0 < (getUserPermissions s userId).countP (fun p => p.id == pid) := by
      have : 0 < (getUserPermissionRows s userId).countP (fun p => p.id == pid) := by
        omega
      obtain ⟨a, ha, hpa⟩ := List.countP_pos_iff.mp this
      exact List.countP_pos_iff.mpr ⟨a, (hmemiff a).mpr ha, hpa⟩
    omega
  · unfold hasPermissionStore
    rw [execute_eq_any]
    rw [Bool.eq_iff_iff]
    simp only [List.any_eq_true]
    constructor
    · rintro ⟨x, hx, hpx⟩
      exact ⟨x, (hmemiff x).mp hx, hpx⟩
    · rintro ⟨x, hx, hpx⟩
      exact ⟨x, (hmemiff x).mpr hx, hpx⟩

/-- A concrete store in which user-1 holds permission perm-1 through both
role-A and role-B. -/
def twoRoleStore : Store :=
  { userRoles := [⟨"ur-1", "user-1", "role-A", 0⟩, ⟨"ur-2", "user-1", "role-B", 0⟩]
    roles := [⟨"role-A", "Role A", none, "group-1", 0, 0, none⟩,
      ⟨"role-B", "Role B", none, "group-1", 0, 0, none⟩]
    rolePermissions := [⟨"rp-1", "role-A", "perm-1", 0⟩, ⟨"rp-2", "role-B", "perm-1", 0⟩]
    permissions := [permUsersRead] }

theorem c8_duplicate_grants_idempotent_witness :
    ((twoRoleStore.permissions.map (fun p => p.id)).Nodup
      ∧ 2 ≤ (getUserPermissionRows twoRoleStore "user-1").countP
          (fun p => p.id == "perm-1"))
    ∧ ((getUserPermissions twoRoleStore "user-1").countP
          (fun p => p.id == "perm-1") = 1
      ∧ hasPermissionStore twoRoleStore "user-1" "users" "read"
          = (getUserPermissionRows twoRoleStore "user-1").any
              (fun p => p.resource == "users" && p.action == "read")) :=
  ⟨⟨by decide, by decide⟩,
    c8_duplicate_grants_idempotent twoRoleStore "user-1" "perm-1" "users" "read"
      (by decide) (by decide)⟩

/-- The operation kinds accepted by the audit logger. -/
inductive AuditOperation
  | CREATE
  | UPDATE
  | DELETE
  | RESTORE
  | READ
deriving DecidableEq, Repr

/-- A structured snapshot or metadata object.  The audit logger passes these
through untouched, so a field-name to rendered-value association list is a
faithful stand-in for an arbitrary JSON object. -/
abbrev Payload := List (String × String)

/-- The insert shape of the audit_logs table (NewAuditLog). -/
structure NewAuditLog where
  operation : AuditOperation
  entityType : String
  entityId : String
  actorId : String
  oldValues : Option Payload
  newValues : Option Payload
  metadata : Option Payload
deriving DecidableEq, Repr

/-- The select shape of the audit_logs table (AuditLog): the insert shape plus
the generated id and timestamp. -/
structure AuditLog where
  id : String
  operation : AuditOperation
  entityType : String
  entityId : String
  actorId : String
  oldValues : Option Payload
  newValues : Option Payload
  metadata : Option Payload
  timestamp : Nat
deriving DecidableEq, Repr

/-- The ASCII whitespace characters stripped by the JavaScript string trim. -/
def isJsSpace (c : Char) : Bool :=
  c == ' ' || c == '\t' || c == '\n' || c == '\r'
    || c == Char.ofNat 11 || c == Char.ofNat 12

/-- String.prototype.trim: strip whitespace from both ends. -/
def jsTrim (s : String) : String :=
  String.mk (((s.toList.dropWhile isJsSpace).reverse.dropWhile isJsSpace).reverse)

/-- AuditLogRepository.create: a single insert with returning; the store
assigns the generated id and timestamp.  The id is derived from the store size
and the timestamp from an insertion counter, modelling uniqueness. -/
def auditCreate (data : NewAuditLog) (store : List AuditLog) :
    Except String AuditLog × List AuditLog :=
  let entry : AuditLog :=
    { id := "log-" ++ toString store.length
      operation := data.operation
      entityType := data.entityType
      entityId := data.entityId
      actorId := data.actorId
      oldValues := data.oldValues
      newValues := data.newValues
      metadata := data.metadata
      timestamp := store.length }
  (Except.ok entry, store ++ [entry])

/-- AuditLogger.log: validate the three required fields, then build the insert
data with trimmed strings and null-defaulted values, and delegate to create.
On a validation failure it throws before any write: the store is untouched. -/
def auditLog (params : NewAuditLog) (store : List AuditLog) :
    Except String AuditLog × List AuditLog :=
  if params.entityType == "" || jsTrim params.entityType == "" then
    (Except.error "entityType cannot be empty", store)
  else if params.entityId == "" || jsTrim params.entityId == "" then
    (Except.error "entityId cannot be empty", store)
  else if params.actorId == "" || jsTrim params.actorId == "" then
    (Except.error "actorId cannot be empty", store)
  else
    auditCreate
      { operation := params.operation
        entityType := jsTrim params.entityType
        entityId := jsTrim params.entityId
        actorId := jsTrim params.actorId
        oldValues := params.oldValues
        newValues := params.newValues
        metadata := params.metadata } store

/-- AuditLogger.logCreate: oldValues forced null. -/
def logCreate (entityType entityId actorId : String) (newValues : Payload)
    (metadata : Option Payload) (store : List AuditLog) :
    Except String AuditLog × List AuditLog :=
  auditLog
    ⟨AuditOperation.CREATE, entityType, entityId, actorId, none, some newValues,
      metadata⟩ store

/-- AuditLogger.logUpdate: both snapshots as given. -/
def logUpdate (entityType entityId actorId : String) (oldValues newValues : Payload)
    (metadata : Option Payload) (store : List AuditLog) :
    Except String AuditLog × List AuditLog :=
  auditLog
    ⟨AuditOperation.UPDATE, entityType, entityId, actorId, some oldValues,
      some newValues, metadata⟩ store

/-- AuditLogger.logDelete: newValues forced null. -/
def logDelete (entityType entityId actorId : String) (oldValues : Payload)
    (metadata : Option Payload) (store : List AuditLog) :
    Except String AuditLog × List AuditLog :=
  auditLog
    ⟨AuditOperation.DELETE, entityType, entityId, actorId, some oldValues, none,
      metadata⟩ store

/-- AuditLogger.logRestore: oldValues forced null. -/
def logRestore (entityType entityId actorId : String) (newValues : Payload)
    (metadata : Option Payload) (store : List AuditLog) :
    Except String AuditLog × List AuditLog :=
  auditLog
    ⟨AuditOperation.RESTORE, entityType, entityId, actorId, none, some newValues,
      metadata⟩ store

/-- AuditLogger.logRead: both snapshots forced null. -/
def logRead (entityType entityId actorId : String)
    (metadata : Option Payload) (store : List AuditLog) :
    Except String AuditLog × List AuditLog :=
  auditLog
    ⟨AuditOperation.READ, entityType, entityId, actorId, none, none, metadata⟩ store

theorem auditLog_blank (params : NewAuditLog) (store : List AuditLog)
    (hblank : jsTrim params.entityType = "" ∨ jsTrim params.entityId = ""
      ∨ jsTrim params.actorId = "") :
    ∃ msg, auditLog params store = (Except.error msg, store) := by
  unfold auditLog
  by_cases h1 : (params.entityType == "" || jsTrim params.entityType == "") = true
  · rw [if_pos h1]
    exact ⟨_, rfl⟩
  · rw [if_neg h1]
    by_cases h2 : (params.entityId == "" || jsTrim params.entityId == "") = true
    · rw [if_pos h2]
      exact ⟨_, rfl⟩
    · rw [if_neg h2]
      by_cases h3 : (params.actorId == "" || jsTrim params.actorId == "") = true
      · rw [if_pos h3]
        exact ⟨_, rfl⟩
      · exfalso
        rcases hblank with h | h | h
        · exact h1 (by simp [h])
        · exact h2 (by simp [h])
        · exact h3 (by simp [h])

/-- Claim C6: a call to any of the five log helpers whose entityType, entityId
or actorId is blank after trimming fails with a validation error, and the
audit store receives zero writes: the returned store equals the input store. -/
theorem c6_blank_validation_no_write (entityType entityId actorId : String)
    (oldValues newValues : Payload) (metadata : Option Payload)
    (store : List AuditLog)
    (hblank : jsTrim entityType = "" ∨ jsTrim entityId = "" ∨ jsTrim actorId = "") :
    (∃ m1, logCreate entityType entityId actorId newValues metadata store
        = (Except.error m1, store))
    ∧ (∃ m2, logUpdate entityType entityId actorId oldValues newValues metadata store
        = (Except.error m2, store))
    ∧ (∃ m3, logDelete entityType entityId actorId oldValues metadata store
        = (Except.error m3, store))
    ∧ (∃ m4, logRestore entityType entityId actorId newValues metadata store
        = (Except.error m4, store))
    ∧ (∃ m5, logRead entityType entityId actorId metadata store
        = (Except.error m5, store)) :=
  ⟨auditLog_blank _ store hblank, auditLog_blank _ store hblank,
    auditLog_blank _ store hblank, auditLog_blank _ store hblank,
    auditLog_blank _ store hblank⟩

theorem c6_blank_validation_no_write_witness :
    (jsTrim "user" = "" ∨ jsTrim "   " = "" ∨ jsTrim "actor-1" = "")
    ∧ ((∃ m1, logCreate "user" "   " "actor-1" [("email", "a@b.com")] none []
        = (Except.error m1, []))
      ∧ (∃ m2, logUpdate "user" "   " "actor-1" [] [("email", "a@b.com")] none []
          = (Except.error m2, []))
      ∧ (∃ m3, logDelete "user" "   " "actor-1" [] none []
          = (Except.error m3, []))
      ∧ (∃ m4, logRestore "user" "   " "actor-1" [("email", "a@b.com")] none []
          = (Except.error m4, []))
      ∧ (∃ m5, logRead "user" "   " "actor-1" none []
          = (Except.error m5, []))) :=
  ⟨Or.inr (Or.inl (by decide)),
    c6_blank_validation_no_write "user" "   " "actor-1" []
      [("email", "a@b.com")] none [] (Or.inr (Or.inl (by decide)))⟩

theorem auditLog_ok_fields (params : NewAuditLog) (store : List AuditLog)
    (entry : AuditLog) (store2 : List AuditLog)
    (h : auditLog params store = (Except.ok entry, store2)) :
    entry.operation = params.operation
    ∧ entry.oldValues = params.oldValues
    ∧ entry.newValues = params.newValues := by
  unfold auditLog at h
  by_cases h1 : (params.entityType == "" || jsTrim params.entityType == "") = true
  · rw [if_pos h1] at h
    simp at h
  · rw [if_neg h1] at h
    by_cases h2 : (params.entityId == "" || jsTrim params.entityId == "") = true
    · rw [if_pos h2] at h
      simp at h
    · rw [if_neg h2] at h
      by_cases h3 : (params.actorId == "" || jsTrim params.actorId == "") = true
      · rw [if_pos h3] at h
        simp at h
      · rw [if_neg h3] at h
        unfold auditCreate at h
        simp only [Prod.mk.injEq, Except.ok.injEq] at h
        rw [← h.1]
        exact ⟨rfl, rfl, rfl⟩

/-- Claim C7: the record each helper hands to the store obeys the nullability
contract of its operation kind: logCreate stores a null oldValues and the given
newValues, logDelete the reverse, logRestore a null oldValues and the given
newValues, logRead null for both, and logUpdate both given snapshots. -/
theorem c7_nullability_per_operation (entityType entityId actorId : String)
    (oldValues newValues : Payload) (metadata : Option Payload)
    (store : List AuditLog) :
    (∀ entry store2,
      logCreate entityType entityId actorId newValues metadata store
          = (Except.ok entry, store2) →
      entry.operation = AuditOperation.CREATE
        ∧ entry.oldValues = none ∧ entry.newValues = some newValues)
    ∧ (∀ entry store2,
        logUpdate entityType entityId actorId oldValues newValues metadata store
            = (Except.ok entry, store2) →
        entry.operation = AuditOperation.UPDATE
          ∧ entry.oldValues = some oldValues ∧ entry.newValues = some newValues)
    ∧ (∀ entry store2,
        logDelete entityType entityId actorId oldValues metadata store
            = (Except.ok entry, store2) →
        entry.operation = AuditOperation.DELETE
          ∧ entry.oldValues = some oldValues ∧ entry.newValues = none)
    ∧ (∀ entry store2,
        logRestore entityType entityId actorId newValues metadata store
            = (Except.ok entry, store2) →
        entry.operation = AuditOperation.RESTORE
          ∧ entry.oldValues = none ∧ entry.newValues = some newValues)
    ∧ (∀ entry store2,
        logRead entityType entityId actorId metadata store
            = (Except.ok entry, store2) →
        entry.operation = AuditOperation.READ
          ∧ entry.oldValues = none ∧ entry.newValues = none) :=
  ⟨fun entry store2 h => auditLog_ok_fields _ store entry store2 h,
    fun entry store2 h => auditLog_ok_fields _ store entry store2 h,
    fun entry store2 h => auditLog_ok_fields _ store entry store2 h,
    fun entry store2 h => auditLog_ok_fields _ store entry store2 h,
    fun entry store2 h => auditLog_ok_fields _ store entry store2 h⟩

/-- The record produced by a valid logCreate call on an empty store. -/
def entryCreate0 : AuditLog :=
  { id := "log-0"
    operation := AuditOperation.CREATE
    entityType := "user"
    entityId := "u-1"
    actorId := "actor-1"
    oldValues := none
    newValues := some [("email", "a@b.com")]
    metadata := none
    timestamp := 0 }

theorem c7_nullability_per_operation_witness :
    (logCreate "user" "u-1" "actor-1" [("email", "a@b.com")] none []
        = (Except.ok entryCreate0, [entryCreate0]))
    ∧ (entryCreate0.operation = AuditOperation.CREATE
      ∧ entryCreate0.oldValues = none
      ∧ entryCreate0.newValues = some [("email", "a@b.com")]) :=
  ⟨rfl,
    (c7_nullability_per_operation "user" "u-1" "actor-1" []
        [("email", "a@b.com")] none []).1 entryCreate0 [entryCreate0] rfl⟩

/-- A JavaScript number as produced by the Number conversion in findAll: a
rational value or NaN. -/
inductive JSNum
  | num (q : ℚ)
  | nan
deriving Repr

/-- The idiom Number(x) with a fallback after the or-operator: NaN and zero
are falsy and give the fallback, every other number passes through. -/
def jsOrDefault (x : JSNum) (d : ℚ) : ℚ :=
  match x with
  | JSNum.num q => if q = 0 then d else q
  | JSNum.nan => d

/-- The safeLimit computation of AuditLogRepository.findAll:
Math.max(1, Math.min(Number(limit) or 100, 1000)). -/
def safeLimit (limit : JSNum) : ℚ :=
  max 1 (min (jsOrDefault limit 100) 1000)

/-- The safeOffset computation of AuditLogRepository.findAll:
Math.max(0, Number(offset) or 0). -/
def safeOffset (offset : JSNum) : ℚ :=
  max 0 (jsOrDefault offset 0)

/-- Descending insertion by timestamp, for the orderBy desc clause. -/
def insertByTsDesc (x : AuditLog) : List AuditLog → List AuditLog
  | [] => [x]
  | y :: ys =>
      if y.timestamp ≤ x.timestamp then x :: y :: ys else y :: insertByTsDesc x ys

/-- The audit store ordered newest-first. -/
def sortByTsDesc (l : List AuditLog) : List AuditLog :=
  l.foldr insertByTsDesc []

/-- The whole-record count a clamped rational requests from the store. -/
def ratToNat (q : ℚ) : Nat :=
  (⌊q⌋).toNat

/-- AuditLogRepository.findAll: order newest-first, skip safeOffset records and
return at most safeLimit records. -/
def findAll (store : List AuditLog) (limit offset : JSNum) : List AuditLog :=
  ((sortByTsDesc store).drop (ratToNat (safeOffset offset))).take
    (ratToNat (safeLimit limit))

theorem safeLimit_le_1000 (limit : JSNum) : safeLimit limit ≤ 1000 :=
  max_le (by norm_num) (min_le_right _ _)

theorem one_le_safeLimit (limit : JSNum) : 1 ≤ safeLimit limit :=
  le_max_left _ _

theorem ratToNat_le_1000 (q : ℚ) (h : q ≤ 1000) : ratToNat q ≤ 1000 := by
  unfold ratToNat
  have h1 : ⌊q⌋ ≤ ⌊(1000 : ℚ)⌋ := Int.floor_le_floor h
  have h2 : ⌊(1000 : ℚ)⌋ = 1000 := by norm_num
  rw [h2] at h1
  omega

theorem safeLimit_num_5000 : safeLimit (JSNum.num 5000) = 1000 := by
  have h1 : jsOrDefault (JSNum.num 5000) 100 = 5000 := by
    norm_num [jsOrDefault]
  rw [safeLimit, h1, min_eq_right (by norm_num : (1000 : ℚ) ≤ 5000),
    max_eq_right (by norm_num : (1 : ℚ) ≤ 1000)]

theorem safeLimit_nan : safeLimit JSNum.nan = 100 := by
  have h1 : jsOrDefault JSNum.nan 100 = 100 := rfl
  rw [safeLimit, h1, min_eq_left (by norm_num : (100 : ℚ) ≤ 1000),
    max_eq_right (by norm_num : (1 : ℚ) ≤ 100)]

theorem safeLimit_num_neg5 : safeLimit (JSNum.num (-5)) = 1 := by
  have h1 : jsOrDefault (JSNum.num (-5)) 100 = -5 := by
    norm_num [jsOrDefault]
  rw [safeLimit, h1, min_eq_left (by norm_num : (-5 : ℚ) ≤ 1000),
    max_eq_left (by norm_num : (-5 : ℚ) ≤ 1)]

/-- Two fixed audit records used to exercise findAll on a store of size two. -/
def auditRecNew : AuditLog :=
  { id := "log-1"
    operation := AuditOperation.CREATE
    entityType := "user"
    entityId := "u-1"
    actorId := "actor-1"
    oldValues := none
    newValues := some [("email", "a@b.com")]
    metadata := none
    timestamp := 1 }

def auditRecOld : AuditLog :=
  { id := "log-0"
    operation := AuditOperation.CREATE
    entityType := "user"
    entityId := "u-0"
    actorId := "actor-1"
    oldValues := none
    newValues := some [("email", "b@b.com")]
    metadata := none
    timestamp := 0 }

theorem safeOffset_num_0 : safeOffset (JSNum.num 0) = 0 := by
  have h1 : jsOrDefault (JSNum.num 0) 0 = 0 := by
    norm_num [jsOrDefault]
  rw [safeOffset, h1, max_self]

/-- Claim C4, counterexample: with limit equal to minus five, the effective
limit is 1, not the default page size 100: on a store of two records findAll
returns one record, while the default-sized page (as an invalid NaN limit
shows) returns both. -/
theorem c4_counterexample_neg_limit :
    safeLimit (JSNum.num (-5)) = 1
    ∧ safeLimit (JSNum.num (-5)) ≠ 100
    ∧ (findAll [auditRecNew, auditRecOld] (JSNum.num (-5)) (JSNum.num 0)).length = 1
    ∧ (findAll [auditRecNew, auditRecOld] JSNum.nan (JSNum.num 0)).length = 2 := by
  refine ⟨safeLimit_num_neg5, ?_, ?_, ?_⟩
  · rw [safeLimit_num_neg5]
    norm_num
  · unfold findAll
    rw [safeLimit_num_neg5, safeOffset_num_0]
    have hl : ratToNat 1 = 1 := by norm_num [ratToNat]
    have ho : ratToNat 0 = 0 := by norm_num [ratToNat]
    rw [hl, ho]
    decide
  · unfold findAll
    rw [safeLimit_nan, safeOffset_num_0]
    have hl : ratToNat 100 = 100 := by
      norm_num [ratToNat]
      decide
    have ho : ratToNat 0 = 0 := by norm_num [ratToNat]
    rw [hl, ho]
    decide

/-- Claim C4 as amended: findAll returns at most 1000 records for every
caller-supplied limit and offset; limit 5000 is clamped to an effective limit
of 1000; a non-numeric limit falls back to the default 100; but a negative
limit such as minus five is clamped up to 1, not to the default 100 -- still
neither an error nor an empty or unbounded result. -/
theorem c4_pagination_clamping :
    (∀ (store : List AuditLog) (limit offset : JSNum),
      (findAll store limit offset).length ≤ 1000)
    ∧ safeLimit (JSNum.num 5000) = 1000
    ∧ safeLimit JSNum.nan = 100
    ∧ safeLimit (JSNum.num (-5)) = 1 := by
  refine ⟨?_, safeLimit_num_5000, safeLimit_nan, safeLimit_num_neg5⟩
  intro store limit offset
  calc (findAll store limit offset).length
      ≤ ratToNat (safeLimit limit) := by
        unfold findAll
        exact List.length_take_le _ _
    _ ≤ 1000 := ratToNat_le_1000 _ (safeLimit_le_1000 limit)

/-- Claim C10, counterexample: a fractional limit is not rounded to an
integer: with limit five halves the effective limit passed to the storage
query is five halves itself, which is not an integer. -/
theorem c10_counterexample_fractional :
    safeLimit (JSNum.num (5 / 2)) = 5 / 2
    ∧ ¬ ∃ n : ℤ, safeLimit (JSNum.num (5 / 2)) = (n : ℚ) := by
  have heq : safeLimit (JSNum.num (5 / 2)) = 5 / 2 := by
    have h1 : jsOrDefault (JSNum.num (5 / 2)) 100 = 5 / 2 := by
      norm_num [jsOrDefault]
    rw [safeLimit, h1, min_eq_left (by norm_num : (5 / 2 : ℚ) ≤ 1000),
      max_eq_right (by norm_num : (1 : ℚ) ≤ 5 / 2)]
  refine ⟨heq, ?_⟩
  rintro ⟨n, hn⟩
  rw [heq] at hn
  have h5 : (5 : ℚ) = (n : ℚ) * 2 := by
    rw [← hn]
    norm_num
  have h6 : (5 : ℤ) = n * 2 := by exact_mod_cast h5
  omega

/-- Claim C10 as amended: for every caller-supplied limit and offset, the
effective limit findAll passes to the storage query lies in the closed
interval from 1 to 1000 -- never zero, never negative -- and the effective
offset is non-negative; the limit is however not rounded to an integer, so a
fractional limit passes through fractionally. -/
theorem c10_effective_bounds (limit offset : JSNum) :
    1 ≤ safeLimit limit
    ∧ safeLimit limit ≤ 1000
    ∧ 0 ≤ safeOffset offset :=
  ⟨one_le_safeLimit limit, safeLimit_le_1000 limit, le_max_left _ _⟩

end AppT
